import Mathlib

/-
  Verification development for the dialogue policy & transition engine
  (orchestration package: observer, rule selector, output validator,
  output fixer, critic loop and graph loop).

  Modelling conventions:
  * Python floats are modelled as exact rationals (ℚ); all arithmetic the
    claims exercise is exact in binary floating point as well.
  * Python dicts are association lists keyed by strings, in insertion order.
  * LLM-backed services (generation, classification, consent judgment,
    semantic rule checks, rewrite) are oracles passed as parameters.
  * Python exceptions are modelled with `Except Unit`; an exception caught
    by a `try/except` block in the source becomes a `match` on the error.
-/

namespace YumekaSpec

/-- Python scalar/collection values that appear in contexts and rule
conditions.  `noneV` is Python `None`; ints and floats are merged into
`numV` (comparisons between them are numeric in Python). -/
inductive PyVal where
  | noneV : PyVal
  | boolV : Bool → PyVal
  | numV : ℚ → PyVal
  | strV : String → PyVal
  | listV : List PyVal → PyVal
  | dictV : List (String × PyVal) → PyVal
deriving Repr

/-- Numeric view of a value: Python treats `bool` as a number in
comparisons and arithmetic (`True == 1`). -/
def toNumQ : PyVal → Option ℚ
  | .boolV b => some (if b then 1 else 0)
  | .numV q => some q
  | _ => none

/-- Python truthiness of a value. -/
def pyTruthy : PyVal → Bool
  | .noneV => false
  | .boolV b => b
  | .numV q => q ≠ 0
  | .strV s => s ≠ ""
  | .listV xs => !xs.isEmpty
  | .dictV xs => !xs.isEmpty

mutual

/-- Python `==` on the modelled fragment.  Numbers and booleans compare
numerically; sequences compare pointwise; dicts are compared entrywise in
insertion order (Python compares them unordered, which coincides on the
data the engine builds); mixed types are unequal, never an error. -/
def pyEqVal : PyVal → PyVal → Bool
  | .noneV, .noneV => true
  | .strV s, .strV t => s = t
  | .listV as, .listV bs => pyEqList as bs
  | .dictV as, .dictV bs => pyEqDict as bs
  | x, y =>
    match toNumQ x, toNumQ y with
    | some p, some q => p = q
    | _, _ => false

/-- Pointwise equality of value lists. -/
def pyEqList : List PyVal → List PyVal → Bool
  | [], [] => true
  | a :: as, b :: bs => pyEqVal a b && pyEqList as bs
  | _, _ => false

/-- Entrywise equality of dict entries. -/
def pyEqDict : List (String × PyVal) → List (String × PyVal) → Bool
  | [], [] => true
  | (k, a) :: as, (k', b) :: bs => k = k' && pyEqVal a b && pyEqDict as bs
  | _, _ => false

end

/-- Ordered comparison operators of Python. -/
inductive PyOrdOp where
  | lt | le | gt | ge
deriving Repr, DecidableEq

/-- Apply an ordered comparison to rationals. -/
def applyOrdQ : PyOrdOp → ℚ → ℚ → Bool
  | .lt, a, b => a < b
  | .le, a, b => a ≤ b
  | .gt, a, b => b < a
  | .ge, a, b => b ≤ a

/-- Apply an ordered comparison to strings (Python code-point order). -/
def applyOrdStr : PyOrdOp → String → String → Bool
  | .lt, a, b => a < b
  | .le, a, b => ¬ (b < a)
  | .gt, a, b => b < a
  | .ge, a, b => ¬ (a < b)

/-- Python ordered comparison: numbers (and bools) compare numerically,
strings lexicographically; anything else raises `TypeError`, modelled as
`Except.error`. -/
def pyOrdVal (op : PyOrdOp) (a b : PyVal) : Except Unit Bool :=
  match toNumQ a, toNumQ b with
  | some x, some y => .ok (applyOrdQ op x y)
  | _, _ =>
    match a, b with
    | .strV s, .strV t => .ok (applyOrdStr op s t)
    | _, _ => .error ()

/-- Substring test on character lists (Python `needle in hay` on `str`). -/
def subList (needle : List Char) : List Char → Bool
  | [] => needle.isEmpty
  | x :: rest => needle.isPrefixOf (x :: rest) || subList needle rest

/-- Python `needle in hay` for strings. -/
def strContains (hay needle : String) : Bool :=
  subList needle.toList hay.toList

/-- Python membership `x in c`: lists test element equality, strings test
substring (left operand must be a string), dicts test key membership;
other containers raise `TypeError`. -/
def pyMem (x c : PyVal) : Except Unit Bool :=
  match c with
  | .listV xs => .ok (xs.any (fun y => pyEqVal x y))
  | .strV s =>
    match x with
    | .strV n => .ok (strContains s n)
    | _ => .error ()
  | .dictV d =>
    match x with
    | .strV k => .ok ((d.lookup k).isSome)
    | _ => .ok false
  | _ => .error ()

/-- Update (or append) a key in an insertion-ordered dict, as Python
`d[k] = v` does. -/
def setKey (k : String) (v : PyVal) : List (String × PyVal) → List (String × PyVal)
  | [] => [(k, v)]
  | (k', v') :: rest => if k' = k then (k, v) :: rest else (k', v') :: setKey k v rest

/-- Binary arithmetic operators of the modelled expression fragment. -/
inductive PyBinOp where
  | add | sub | mul
deriving Repr, DecidableEq

/-- Comparison operators of the modelled expression fragment. -/
inductive PyCmpOp where
  | lt | le | gt | ge | eq | ne
deriving Repr, DecidableEq

/-- The fragment of Python expressions that trigger-condition strings use.
The observer evaluates such strings with the host `eval` (builtins
stripped, the turn context as locals); this AST is the abstract syntax of
that general expression language: literals, variable lookup, arithmetic,
comparisons, boolean operators and subscription. -/
inductive PyExpr where
  | const : PyVal → PyExpr
  | name : String → PyExpr
  | binop : PyBinOp → PyExpr → PyExpr → PyExpr
  | cmp : PyCmpOp → PyExpr → PyExpr → PyExpr
  | andE : PyExpr → PyExpr → PyExpr
  | orE : PyExpr → PyExpr → PyExpr
  | notE : PyExpr → PyExpr
  | subscript : PyExpr → PyExpr → PyExpr
deriving Repr

/-- Evaluate one arithmetic operator; numbers add/subtract/multiply,
strings concatenate under `+`; anything else raises. -/
def pyArith (op : PyBinOp) (a b : PyVal) : Except Unit PyVal :=
  match toNumQ a, toNumQ b with
  | some x, some y =>
    match op with
    | .add => .ok (.numV (x + y))
    | .sub => .ok (.numV (x - y))
    | .mul => .ok (.numV (x * y))
  | _, _ =>
    match a, b, op with
    | .strV s, .strV t, .add => .ok (.strV (s ++ t))
    | _, _, _ => .error ()

/-- Evaluate one comparison operator. -/
def pyCmpVal (op : PyCmpOp) (a b : PyVal) : Except Unit Bool :=
  match op with
  | .eq => .ok (pyEqVal a b)
  | .ne => .ok (!pyEqVal a b)
  | .lt => pyOrdVal .lt a b
  | .le => pyOrdVal .le a b
  | .gt => pyOrdVal .gt a b
  | .ge => pyOrdVal .ge a b

/-- Embedding of `eval(condition_expr, {"__builtins__": None}, context)`:
the host language's general expression evaluator, restricted to the
modelled fragment, over the context dict.  Unknown names raise
(`NameError`), bad operand types raise (`TypeError`), bad subscripts
raise (`KeyError`/`IndexError`); Python `and`/`or` return an operand. -/
def pyEval (ctx : List (String × PyVal)) : PyExpr → Except Unit PyVal
  | .const v => .ok v
  | .name s =>
    match ctx.lookup s with
    | some v => .ok v
    | none => .error ()
  | .binop op a b => do
    let a' ← pyEval ctx a
    let b' ← pyEval ctx b
    pyArith op a' b'
  | .cmp op a b => do
    let a' ← pyEval ctx a
    let b' ← pyEval ctx b
    let r ← pyCmpVal op a' b'
    .ok (.boolV r)
  | .andE a b => do
    let a' ← pyEval ctx a
    if pyTruthy a' then pyEval ctx b else .ok a'
  | .orE a b => do
    let a' ← pyEval ctx a
    if pyTruthy a' then .ok a' else pyEval ctx b
  | .notE a => do
    let a' ← pyEval ctx a
    .ok (.boolV (!pyTruthy a'))
  | .subscript a k => do
    let a' ← pyEval ctx a
    let k' ← pyEval ctx k
    match a', k' with
    | .dictV d, .strV s =>
      match d.lookup s with
      | some v => .ok v
      | none => .error ()
    | .listV xs, .numV i =>
      if h : i.den = 1 ∧ 0 ≤ i.num ∧ i.num.toNat < xs.length then
        .ok (xs.get ⟨i.num.toNat, h.2.2⟩)
      else .error ()
    | _, _ => .error ()

/-! ### Data model (`models.py`) -/

/-- PAD affect state (`EmotionState` in `models.py`); floats as exact
rationals. -/
structure EmotionState where
  pleasure : ℚ := 0
  arousal : ℚ := 0
  dominance : ℚ := 0
deriving Repr, DecidableEq

/-- Embedding of `EmotionState.clamp`: clamp each axis into `[-10, 10]`. -/
def clamp (e : EmotionState) : EmotionState :=
  { pleasure := max (-10) (min 10 e.pleasure)
    arousal := max (-10) (min 10 e.arousal)
    dominance := max (-10) (min 10 e.dominance) }

/-- Embedding of `EmotionState.decay`: pleasure and arousal are multiplied by
`1 - rate*0.1`; dominance is untouched. -/
def decay (rate : ℚ) (e : EmotionState) : EmotionState :=
  { e with
    pleasure := e.pleasure * (1 - rate * (1 / 10))
    arousal := e.arousal * (1 - rate * (1 / 10)) }

/-- Embedding of `ScenarioState` in `models.py`. -/
structure ScenarioState where
  current_phase : String := "phase_1_meeting"
  current_scene : String := "scene_station_front"
  turn_count_in_phase : Nat := 0
  vars : List (String × PyVal) := []
deriving Repr

/-- Embedding of `UserState` in `models.py`, restricted to the fields the engine
reads (user id, timestamp and memory cache are opaque to the claims). -/
structure UserState where
  emotion : EmotionState := {}
  scenario_state : ScenarioState := {}
deriving Repr

/-! ### Observer (`observer.py`) -/

/-- Keywords bumping pleasure/arousal (`POSITIVE` in `observer.py`). -/
def POSITIVE : List String :=
  ["好き", "楽しい", "嬉しい", "最高", "応援", "可愛い", "かわいい"]

/-- Keywords lowering pleasure/dominance (`NEGATIVE`). -/
def NEGATIVE : List String :=
  ["嫌い", "つまらない", "最低", "うざい", "帰る"]

/-- Keywords bumping arousal (`ACTIVE`). -/
def ACTIVE : List String :=
  ["行こう", "やる", "走る", "ダンス", "歌", "!"]

/-- Embedding of `_apply_keywords`: rule-based affect update from keyword hits. -/
def applyKeywords (text : String) (e : EmotionState) : EmotionState :=
  let e1 :=
    if POSITIVE.any (fun k => strContains text k) then
      { e with pleasure := e.pleasure + 1, arousal := e.arousal + 1 / 2 }
    else e
  let e2 :=
    if NEGATIVE.any (fun k => strContains text k) then
      { e1 with pleasure := e1.pleasure - 3 / 2, dominance := e1.dominance - 1 / 2 }
    else e1
  if ACTIVE.any (fun k => strContains text k) then
    { e2 with arousal := e2.arousal + 1 }
  else e2

/-- One phase entry of the scenario definition
(`SCENARIO_DATA["phases"]` in `observer.py`): optional next phase,
optional trigger condition (absent/empty condition strings are `none`),
proposal text (`""` when absent), optional description and the phase's
scene identifiers in declaration order. -/
structure PhaseDef where
  next_phase : Option String := none
  trigger_condition : Option PyExpr := none
  proposal_text : String := ""
  descr : Option String := none
  scenes : List String := []

/-- The scenario's phase table, in declaration order. -/
abbrev Phases := List (String × PhaseDef)

/-- A consent-judgment oracle (`utterance_classifier.check_consent`):
utterance and optional proposal context to (consent, confidence). -/
abbrev ConsentJudge := String → Option String → Bool × ℚ

/-- Last assistant message of the history, as `_check_scenario_trigger`
finds the proposal context (history entries are (role, content)). -/
def historyLastAssistant (history : List (String × String)) : Option String :=
  (history.reverse.find? (fun m => m.1 = "assistant")).map (fun m => m.2)

/-- Truthiness of a variable in the scenario's variable dict, with
Python's `dict.get(key, False)` default. -/
def varTruthy (vars : List (String × PyVal)) (k : String) : Bool :=
  pyTruthy ((vars.lookup k).getD (.boolV false))

/-- The consent-judgment step of `_check_scenario_trigger` (observer.py
lines 59-84): when `awaiting_consent` is truthy and the utterance is
non-empty, judge consent on the utterance; affirmation with confidence
`≥ 0.6` sets `consent_for_next_phase`, anything else resets
`awaiting_consent`.  Returns the updated variables and the local
`consent_for_next_phase` flag used to build the evaluation context. -/
def consentStep (judge : ConsentJudge) (vars : List (String × PyVal))
    (userMessage : String) (history : List (String × String)) :
    List (String × PyVal) × Bool :=
  let consentVar := varTruthy vars "consent_for_next_phase"
  if varTruthy vars "awaiting_consent" ∧ userMessage ≠ "" then
    let pc := historyLastAssistant history
    let j := judge userMessage pc
    if j.1 ∧ (3 : ℚ) / 5 ≤ j.2 then
      (setKey "consent_for_next_phase" (.boolV true) vars, true)
    else
      (setKey "awaiting_consent" (.boolV false) vars, consentVar)
  else (vars, consentVar)

/-- The evaluation context `_check_scenario_trigger` hands to `eval`:
turn counters, PAD axes, the variable dict and the consent flag. -/
def mkTriggerCtx (st : UserState) (consentVar : Bool) : List (String × PyVal) :=
  [("turn_count_in_phase", .numV st.scenario_state.turn_count_in_phase),
   ("turn_count_in_scene", .numV st.scenario_state.turn_count_in_phase),
   ("pleasure", .numV st.emotion.pleasure),
   ("arousal", .numV st.emotion.arousal),
   ("dominance", .numV st.emotion.dominance),
   ("variables", .dictV st.scenario_state.vars),
   ("consent_for_next_phase", .boolV consentVar)]

/-- The generated fallback proposal instruction, built from the next
phase's description (`observer.py` line 129). -/
def proposalFallback (phases : Phases) (np : String) : String :=
  let d :=
    match phases.lookup np with
    | some pd => pd.descr.getD np
    | none => np
  "次のフェーズ「" ++ d ++ "」への移行を提案してください。"

/-- Embedding of `_check_scenario_trigger`: consent judgment, trigger evaluation with
transition bookkeeping, and the relaxed proposal re-evaluation.  Returns
the (possibly mutated) state, whether a transition fired, and an optional
proposal instruction.  Evaluation errors are caught and fall through. -/
def checkScenarioTrigger (phases : Phases) (judge : ConsentJudge)
    (state : UserState) (userMessage : String)
    (history : List (String × String)) : UserState × Bool × Option String :=
  match phases.lookup state.scenario_state.current_phase with
  | none => (state, false, none)
  | some pd =>
    match pd.next_phase, pd.trigger_condition with
    | some np, some cond =>
      if np = "" then (state, false, none) else
      let vc := consentStep judge state.scenario_state.vars userMessage history
      let st1 : UserState :=
        { state with scenario_state := { state.scenario_state with vars := vc.1 } }
      let ctx := mkTriggerCtx st1 vc.2
      let fired :=
        match pyEval ctx cond with
        | .ok v => pyTruthy v
        | .error _ => false
      if fired then
        let vars2 :=
          setKey "awaiting_consent" (.boolV false)
            (setKey "consent_for_next_phase" (.boolV false) vc.1)
        let newScene :=
          match phases.lookup np with
          | some pd2 =>
            match pd2.scenes with
            | s :: _ => s
            | [] => st1.scenario_state.current_scene
          | none => st1.scenario_state.current_scene
        ({ st1 with
            scenario_state :=
              { current_phase := np
                current_scene := newScene
                turn_count_in_phase := 0
                vars := vars2 } }, true, none)
      else
        if ¬ vc.2 ∧ ¬ varTruthy vc.1 "awaiting_consent" then
          let ctx2 := setKey "consent_for_next_phase" (.boolV true) ctx
          match pyEval ctx2 cond with
          | .ok v =>
            if pyTruthy v then
              let vars3 := setKey "awaiting_consent" (.boolV true) vc.1
              let instr :=
                if pd.proposal_text ≠ "" then pd.proposal_text
                else proposalFallback phases np
              ({ st1 with
                  scenario_state :=
                    { st1.scenario_state with vars := vars3 } },
               false, some instr)
            else (st1, false, none)
          | .error _ => (st1, false, none)
        else (st1, false, none)
    | _, _ => (state, false, none)

/-- The rule-based branch of `update_state` (`observer.py` lines
216-255, LLM unavailable): keyword affect update, clamp, decay(0.1),
turn-count increment, then the scenario trigger check; returns the final
state and the instruction override handed to the actor. -/
def updateStateFallback (phases : Phases) (judge : ConsentJudge)
    (userMessage : String) (state : UserState)
    (history : List (String × String)) : UserState × Option String :=
  let e := decay (1 / 10) (clamp (applyKeywords userMessage state.emotion))
  let st : UserState :=
    { emotion := e
      scenario_state :=
        { state.scenario_state with
            turn_count_in_phase := state.scenario_state.turn_count_in_phase + 1 } }
  let r := checkScenarioTrigger phases judge st userMessage history
  let instr : Option String :=
    if r.2.1 then some " [SYSTEM: PHASE CHANGED]"
    else
      match r.2.2 with
      | some p => some (" [SYSTEM: PROPOSE TRANSITION] " ++ p)
      | none => none
  (r.1, instr)

/-! ### Rule selector (`rules/rule_selector.py`) -/

/-- Python `a != b` on values (total, never raises). -/
def pyNeVal (a b : PyVal) : Bool := !pyEqVal a b

/-- One `$lte/$gte/$lt/$gt/$eq` block for the turn-count key
(`_evaluate_condition`, `turn_count_in_phase` branch): each operator
present in the dict is tested in order; ordered comparisons may raise. -/
def turnCountOps (actual : ℚ) (d : List (String × PyVal)) : Except Unit Bool := do
  match d.lookup "$lte" with
  | some v =>
    let r ← pyOrdVal .gt (.numV actual) v
    if r then return false
  | none => pure ()
  match d.lookup "$gte" with
  | some v =>
    let r ← pyOrdVal .lt (.numV actual) v
    if r then return false
  | none => pure ()
  match d.lookup "$lt" with
  | some v =>
    let r ← pyOrdVal .ge (.numV actual) v
    if r then return false
  | none => pure ()
  match d.lookup "$gt" with
  | some v =>
    let r ← pyOrdVal .le (.numV actual) v
    if r then return false
  | none => pure ()
  match d.lookup "$eq" with
  | some v =>
    if pyNeVal (.numV actual) v then return false
  | none => pure ()
  return true

/-- The `$gte`/`$lte` block for an emotion key (`arousal`, `pleasure`,
`dominance` branches only test these two operators). -/
def emotionOps (actual : ℚ) (d : List (String × PyVal)) : Except Unit Bool := do
  match d.lookup "$gte" with
  | some v =>
    let r ← pyOrdVal .lt (.numV actual) v
    if r then return false
  | none => pure ()
  match d.lookup "$lte" with
  | some v =>
    let r ← pyOrdVal .gt (.numV actual) v
    if r then return false
  | none => pure ()
  return true

/-- Keywords that the `emotion == "scolded"` branch looks for in the
user message. -/
def scoldedKeywords : List String := ["怒", "うるさい", "黙れ", "バカ", "アホ"]

/-- Python `any(kw in user_message for kw in value)` over a value list:
lazily evaluated, a non-string keyword raises `TypeError` when reached.
-/
def anyKeywordIn (msg : String) : List PyVal → Except Unit Bool
  | [] => .ok false
  | .strV k :: rest =>
    if strContains msg k then .ok true else anyKeywordIn msg rest
  | _ :: _ => .error ()

/-- One key of `RuleSelector._evaluate_condition`.  Returns `ok false` as
soon as a clause fails, `ok true` if the clause holds, propagating any
comparison `TypeError`.  Keys outside the handled set are skipped — i.e.
silently treated as satisfied. -/
def evalConditionKey (state : UserState) (userMessage : String)
    (key : String) (value : PyVal) : Except Unit Bool :=
  if key = "current_scene" then
    .ok (!pyNeVal (.strV state.scenario_state.current_scene) value)
  else if key = "current_phase" then
    match value with
    | .dictV d =>
      match d.lookup "$in" with
      | some inv => do
        let m ← pyMem (.strV state.scenario_state.current_phase) inv
        .ok m
      | none => .ok (!pyNeVal (.strV state.scenario_state.current_phase) value)
    | _ => .ok (!pyNeVal (.strV state.scenario_state.current_phase) value)
  else if key = "turn_count_in_phase" then
    match value with
    | .dictV d => turnCountOps state.scenario_state.turn_count_in_phase d
    | _ => .ok (!pyNeVal (.numV state.scenario_state.turn_count_in_phase) value)
  else if key = "arousal" then
    match value with
    | .dictV d => emotionOps state.emotion.arousal d
    | _ => .ok (!pyNeVal (.numV state.emotion.arousal) value)
  else if key = "pleasure" then
    match value with
    | .dictV d => emotionOps state.emotion.pleasure d
    | _ => .ok (!pyNeVal (.numV state.emotion.pleasure) value)
  else if key = "dominance" then
    match value with
    | .dictV d => emotionOps state.emotion.dominance d
    | _ => .ok (!pyNeVal (.numV state.emotion.dominance) value)
  else if key = "context_keywords" then
    match value with
    | .listV kws => do
      let r ← anyKeywordIn userMessage kws
      .ok r
    | _ => .ok true
  else if key = "emotion" then
    if pyEqVal value (.strV "scolded") then
      .ok (scoldedKeywords.any (fun kw => strContains userMessage kw))
    else .ok true
  else if key = "variables" then
    match value with
    | .dictV d =>
      .ok (d.all (fun kv =>
        !pyNeVal ((state.scenario_state.vars.lookup kv.1).getD .noneV) kv.2))
    | _ => .ok true
  else
    .ok true

/-- Embedding of `RuleSelector._evaluate_condition`: conjunction over the condition's
keys, an empty condition is `True`.  Exceptions from comparisons escape
the evaluator (the source has no `try` here). -/
def evalRuleCondition (cond : List (String × PyVal)) (state : UserState)
    (userMessage : String) : Except Unit Bool :=
  match cond with
  | [] => .ok true
  | (k, v) :: rest => do
    let r ← evalConditionKey state userMessage k v
    if r then evalRuleCondition rest state userMessage else .ok false

/-! ### Output validator (`validation/output_validator.py`) and rule
types (`rules/rule_types.py`) -/

/-- Embedding of `CheckType` in `rule_types.py`. -/
inductive CheckType where
  | regex_forbidden | regex_required | length_max | length_min
  | custom_function | llm_semantic | noCheck
deriving Repr, DecidableEq

/-- Embedding of `ViolationAction` in `rule_types.py`. -/
inductive ViolationAction where
  | rewrite | remove | trim | block
deriving Repr, DecidableEq

/-- Embedding of `ViolationSeverity` in `output_validator.py`. -/
inductive ViolationSeverity where
  | critical | high | medium | low
deriving Repr, DecidableEq

/-- Embedding of `HardRule`: a mandatory rule.  The compiled regex is abstracted as a
search oracle returning the matched substring (`None` when the rule has
no pattern). -/
structure HardRule where
  id : String
  descr : String
  check_type : CheckType
  action_on_violation : ViolationAction
  fix_instruction : String
  patternSearch : Option (String → Option String) := none
  pattern : Option String := none
  max_chars : Option Int := none
  min_chars : Option Int := none
  function_name : Option String := none
  params : List (String × PyVal) := []

/-- Embedding of `SoftRule`: an advisory rule with an optional applicability
condition. -/
structure SoftRule where
  id : String
  descr : String
  check_type : CheckType
  action_on_violation : ViolationAction
  fix_instruction : String
  prompt_hint : Option String := none
  function_name : Option String := none
  params : List (String × PyVal) := []
  condition : Option (List (String × PyVal)) := none

/-- Embedding of `StateDependentRule`: a state-conditional rule. -/
structure StateDependentRule where
  id : String
  descr : String
  condition : List (String × PyVal) := []
  check_type : CheckType
  action_on_violation : Option ViolationAction := none
  fix_instruction : Option String := none
  required_elements : List String := []
  allow_nsfw : Bool := false
  prompt_hint : Option String := none

/-- Embedding of `RuleViolation` in `output_validator.py`. -/
structure RuleViolation where
  rule_id : String
  rule_name : String
  descr : String
  severity : ViolationSeverity
  violation_detail : String
  suggested_action : ViolationAction
  fix_instruction : String
  matched_text : Option String := none
deriving Repr, DecidableEq

/-- Embedding of `ValidationResult` in `output_validator.py`. -/
structure ValidationResult where
  is_valid : Bool
  violations : List RuleViolation := []
  warnings : List String := []
deriving Repr, DecidableEq

/-- Embedding of `ValidationResult.has_critical`. -/
def hasCritical (r : ValidationResult) : Bool :=
  r.violations.any (fun v => v.severity = .critical)

/-- Embedding of `ValidationResult.needs_fix`. -/
def needsFix (r : ValidationResult) : Bool :=
  r.violations.any (fun v => v.severity = .critical ∨ v.severity = .high)

/-- Embedding of `SelectedRules` (the per-turn snapshot built by the rule selector). -/
structure SelectedRules where
  hard_rules : List HardRule := []
  soft_rules : List SoftRule := []
  state_dependent_rules : List StateDependentRule := []
  allow_nsfw : Bool := false
  summary : String := ""

/-- A registry of named custom checkers
(`OutputValidator._custom_checkers`): name to checker, checker gets
(text, history, params) and returns an optional violation detail. -/
abbrev CustomCheckers :=
  String → Option (String → List (String × String) → List (String × PyVal) → Option String)

/-- Embedding of `HardRule.check`: the standard (pattern / length) checks.  Length
limits of `0`/`None` are falsy in Python and disable the check. -/
def hardRuleCheck (r : HardRule) (text : String) : Option String :=
  match r.check_type with
  | .regex_forbidden =>
    match r.patternSearch with
    | some f =>
      match f text with
      | some m => some ("禁止パターン検出: \x27" ++ m ++ "\x27")
      | none => none
    | none => none
  | .regex_required =>
    match r.patternSearch with
    | some f =>
      match f text with
      | some _ => none
      | none => some ("必須パターンが見つかりません: " ++ r.pattern.getD "None")
    | none => none
  | .length_max =>
    match r.max_chars with
    | some m =>
      if m ≠ 0 ∧ m < (text.length : Int) then
        some ("文字数超過: " ++ toString text.length ++ " > " ++ toString m)
      else none
    | none => none
  | .length_min =>
    match r.min_chars with
    | some m =>
      if m ≠ 0 ∧ (text.length : Int) < m then
        some ("文字数不足: " ++ toString text.length ++ " < " ++ toString m)
      else none
    | none => none
  | _ => none

/-- Embedding of `OutputValidator._check_hard_rule`: custom-function rules run their
registered checker and report *high* severity; LLM-semantic rules are
skipped here; standard checks report *critical* when the configured
action is `block`, *high* otherwise. -/
def checkHardRule (custom : CustomCheckers) (r : HardRule) (text : String)
    (history : List (String × String)) : Option RuleViolation :=
  if r.check_type = .custom_function ∧ r.function_name.isSome then
    match r.function_name.bind custom with
    | some f =>
      (f text history r.params).map (fun d =>
        { rule_id := r.id, rule_name := r.id, descr := r.descr
          severity := .high, violation_detail := d
          suggested_action := r.action_on_violation
          fix_instruction := r.fix_instruction })
    | none => none
  else if r.check_type = .llm_semantic then none
  else
    (hardRuleCheck r text).map (fun d =>
      { rule_id := r.id, rule_name := r.id, descr := r.descr
        severity :=
          if r.action_on_violation = .block then .critical else .high
        violation_detail := d
        suggested_action := r.action_on_violation
        fix_instruction := r.fix_instruction })

/-- Embedding of `OutputValidator._check_custom_rule`: a soft rule's custom checker;
matches are *medium* severity. -/
def checkCustomRule (custom : CustomCheckers) (r : SoftRule) (text : String)
    (history : List (String × String)) : Option RuleViolation :=
  match r.function_name with
  | none => none
  | some fn =>
    match custom fn with
    | none => none
    | some f =>
      (f text history r.params).map (fun d =>
        { rule_id := r.id, rule_name := r.id, descr := r.descr
          severity := .medium, violation_detail := d
          suggested_action := r.action_on_violation
          fix_instruction := r.fix_instruction })

/-- Embedding of `OutputValidator._check_state_dependent_rule`: missing required
elements are a *high* violation. -/
def checkStateDependentRule (r : StateDependentRule) (text : String) :
    Option RuleViolation :=
  if r.check_type = .noCheck then none
  else if r.required_elements ≠ [] then
    let missing := r.required_elements.filter (fun e => !strContains text e)
    if missing ≠ [] then
      some { rule_id := r.id, rule_name := r.id, descr := r.descr
             severity := .high
             violation_detail :=
               "必須要素が不足: " ++ String.intercalate ", " missing
             suggested_action := r.action_on_violation.getD .rewrite
             fix_instruction := r.fix_instruction.getD "" }
    else none
  else none

/-- Outcome of the batched semantic-check service call in
`_check_soft_rules_llm`: the call raised, returned a falsy response,
returned output that `json.loads` rejects, or parsed into
`(rule_id, detail)` pairs. -/
inductive LlmOutcome where
  | raised
  | noResponse
  | unparseable
  | parsed : List (String × String) → LlmOutcome

/-- Embedding of `OutputValidator._check_soft_rules_llm`: every failure mode yields
zero violations; parsed pairs are mapped back to their rules as *medium*
violations, unknown rule ids are dropped. -/
def checkSoftRulesLLM (rules : List SoftRule) (o : LlmOutcome) :
    List RuleViolation :=
  if rules.isEmpty then []
  else
    match o with
    | .raised => []
    | .noResponse => []
    | .unparseable => []
    | .parsed vs =>
      vs.filterMap (fun rv =>
        (rules.find? (fun r => r.id = rv.1)).map (fun r =>
          { rule_id := r.id, rule_name := r.id, descr := r.descr
            severity := .medium, violation_detail := rv.2
            suggested_action := r.action_on_violation
            fix_instruction := r.fix_instruction }))

/-- Steps 1-3 of `OutputValidator.validate`: hard rules, soft custom
checks, state-dependent checks, in order. -/
def localViolations (custom : CustomCheckers) (output_text : String)
    (user_message : String) (sel : SelectedRules)
    (history : List (String × String)) : List RuleViolation :=
  (sel.hard_rules.filterMap (fun r => checkHardRule custom r output_text history))
    ++ (sel.soft_rules.filterMap (fun r =>
          if r.check_type = .custom_function ∧ r.function_name.isSome then
            checkCustomRule custom r output_text history
          else none))
    ++ (sel.state_dependent_rules.filterMap (fun r =>
          checkStateDependentRule r output_text))

/-- The advisory rules that need the batched LLM semantic judgment. -/
def llmSoftRules (sel : SelectedRules) : List SoftRule :=
  sel.soft_rules.filter (fun r => r.check_type = .llm_semantic)

/-- Embedding of `OutputValidator.validate`: local checks, then the batched LLM
semantic check unless a critical violation already occurred. -/
def validate (custom : CustomCheckers) (o : LlmOutcome) (output_text : String)
    (user_message : String) (sel : SelectedRules)
    (history : List (String × String)) : ValidationResult :=
  let localV := localViolations custom output_text user_message sel history
  let vs :=
    if !localV.any (fun v => v.severity = .critical) ∧ !(llmSoftRules sel).isEmpty then
      localV ++ checkSoftRulesLLM (llmSoftRules sel) o
    else localV
  { is_valid := vs.isEmpty, violations := vs, warnings := [] }

/-! ### Critic (`critic.py`) -/

/-- Outcome of the critic's LLM call and JSON parse: either some step
raised (transport error or unparseable JSON) or a parse succeeded with
the `is_ok`/`feedback` defaults applied. -/
inductive CriticOutcome where
  | raised
  | parsed : Bool → String → CriticOutcome

/-- Embedding of `critic.check_reply`: on any exception the draft is accepted as-is
with empty feedback. -/
def checkReply (o : CriticOutcome) : Bool × String :=
  match o with
  | .raised => (true, "")
  | .parsed ok fb => (ok, fb)

/-! ### Output fixer (`validation/output_fixer.py`)

The five removal patterns are `（[^）]+）`, `\([^)]+\)`, `\*[^*]+\*`,
`【[^】]+】` and `セイラ[:：]\s*`; each is applied by one `re.sub` sweep
(leftmost, non-overlapping), then whitespace runs collapse to one space
and the ends are stripped. -/

/-- Whitespace for Python's `\s` and `str.strip()` on `str`: the ASCII
whitespace and separator controls plus every Unicode code point whose
`str.isspace()` is true (U+0085, U+00A0, U+1680, U+2000-200A,
U+2028/U+2029, U+202F, U+205F, U+3000). -/
def pySpace (c : Char) : Bool :=
  [0x09, 0x0a, 0x0b, 0x0c, 0x0d, 0x1c, 0x1d, 0x1e, 0x1f, 0x20, 0x85, 0xa0,
   0x1680, 0x2000, 0x2001, 0x2002, 0x2003, 0x2004, 0x2005, 0x2006, 0x2007,
   0x2008, 0x2009, 0x200a, 0x2028, 0x2029, 0x202f, 0x205f,
   0x3000].contains c.toNat

/-- One `re.sub(o [^c]+ c, "", ·)` sweep: at each position, a match needs
the opener, at least one non-closer, then the first closer; matched spans
are dropped and scanning resumes after them, otherwise the scan advances
one character. -/
def subScanGo (o c : Char) : Nat → List Char → List Char
  | _, [] => []
  | 0, l => l
  | fuel + 1, x :: rest =>
    if x = o then
      match rest.findIdx? (fun ch => ch = c) with
      | some idx =>
        if 1 ≤ idx then subScanGo o c fuel (rest.drop (idx + 1))
        else x :: subScanGo o c fuel rest
      | none => x :: subScanGo o c fuel rest
    else x :: subScanGo o c fuel rest

/-- One `re.sub(o [^c]+ c, "", ·)` sweep; the fuel, set to the input
length, only forces termination and is never exhausted. -/
def subScan (o c : Char) (l : List Char) : List Char :=
  subScanGo o c l.length l

/-- Match attempt of `セイラ[:：]\s*` at the head of the text: on a hit
(the name, an ASCII or full-width colon, greedily consumed whitespace)
it returns the remainder after the matched span, otherwise `none`. -/
def seiraHead : List Char → Option (List Char)
  | 'セ' :: 'イ' :: 'ラ' :: d :: rest2 =>
    if d = ':' ∨ d = '：' then some (rest2.dropWhile pySpace) else none
  | _ => none

def removeSeiraGo : Nat → List Char → List Char
  | _, [] => []
  | 0, l => l
  | fuel + 1, x :: rest =>
    match seiraHead (x :: rest) with
    | some rest2 => removeSeiraGo fuel rest2
    | none => x :: removeSeiraGo fuel rest

/-- One `re.sub` sweep of `セイラ[:：]\s*`: matched spans are dropped and
scanning resumes after them, otherwise the scan advances one character
(fuel as above). -/
def removeSeira (l : List Char) : List Char :=
  removeSeiraGo l.length l

/-- Scan kernel deciding whether the regex `o [^c]+ c` matches anywhere
in the text: a match starts at an occurrence of the opener whose first
following closer sits at distance at least two. -/
def hasDelimMatchGo (o c : Char) : Nat → List Char → Bool
  | _, [] => false
  | 0, _ => false
  | fuel + 1, x :: rest =>
    if x = o then
      match rest.findIdx? (fun ch => ch = c) with
      | some idx => if 1 ≤ idx then true else hasDelimMatchGo o c fuel rest
      | none => hasDelimMatchGo o c fuel rest
    else hasDelimMatchGo o c fuel rest

/-- Whether the removal pattern `o [^c]+ c` has a match in the text. -/
def hasDelimMatch (o c : Char) (l : List Char) : Bool :=
  hasDelimMatchGo o c l.length l

/-- Scan kernel deciding whether `セイラ[:：]\s*` matches anywhere. -/
def hasSeiraMatchGo : Nat → List Char → Bool
  | _, [] => false
  | 0, _ => false
  | fuel + 1, x :: rest =>
    match seiraHead (x :: rest) with
    | some _ => true
    | none => hasSeiraMatchGo fuel rest

/-- Whether the removal pattern `セイラ[:：]\s*` has a match in the
text. -/
def hasSeiraMatch (l : List Char) : Bool :=
  hasSeiraMatchGo l.length l

/-- Embedding of `re.sub(r"\s+", " ", ·)`: each maximal whitespace run becomes one
space. -/
def collapseWsGo : Nat → List Char → List Char
  | _, [] => []
  | 0, l => l
  | fuel + 1, x :: rest =>
    if pySpace x then ' ' :: collapseWsGo fuel (rest.dropWhile pySpace)
    else x :: collapseWsGo fuel rest

/-- Embedding of `re.sub(r"\s+", " ", ·)`: each maximal whitespace run becomes one
space (fuel as above). -/
def collapseWs (l : List Char) : List Char :=
  collapseWsGo l.length l

/-- Python `str.strip()`. -/
def pyStrip (l : List Char) : List Char :=
  ((l.dropWhile pySpace).reverse.dropWhile pySpace).reverse

/-- The five narration-pattern sweeps of `_apply_remove`, in source
order. -/
def narrationSweeps (l : List Char) : List Char :=
  removeSeira (subScan '【' '】' (subScan '*' '*' (subScan '(' ')' (subScan '（' '）' l))))

/-- Embedding of `OutputFixer._apply_remove`: pattern sweeps, whitespace collapse,
strip; the change flag compares the pre-strip text with the original. -/
def applyRemove (text : List Char) : List Char × Bool :=
  let collapsed := collapseWs (narrationSweeps text)
  (pyStrip collapsed, collapsed ≠ text)

/-- The sentence delimiters `。！？` of `_apply_trim`. -/
def sentenceDelim (c : Char) : Bool :=
  c = '。' ∨ c = '！' ∨ c = '？'

/-- Split into (sentence, delimiter) pairs as
`re.split(r"([。！？])", text)` paired up by the trim loop; the trailing
segment after the last delimiter is never consumed by the loop. -/
def sentPairsGo : Nat → List Char → List (List Char × List Char)
  | _, [] => []
  | 0, _ => []
  | fuel + 1, l =>
    match l.findIdx? sentenceDelim with
    | some idx =>
      (l.take idx, (l.drop idx).take 1) :: sentPairsGo fuel (l.drop (idx + 1))
    | none => []

/-- Split into (sentence, delimiter) pairs as
`re.split(r"([。！？])", text)` paired up by the trim loop; the trailing
segment after the last delimiter is never consumed by the loop (fuel as
above). -/
def sentPairs (l : List Char) : List (List Char × List Char) :=
  sentPairsGo l.length l

/-- The accumulation loop of `_apply_trim`: append sentence+delimiter
pairs while the candidate stays within the limit, stop at the first
overflow. -/
def trimLoop (maxChars : Nat) : List Char → List (List Char × List Char) → List Char
  | res, [] => res
  | res, (s, d) :: ps =>
    let cand := res ++ s ++ d
    if maxChars < cand.length then res else trimLoop maxChars cand ps

/-- Embedding of `OutputFixer._apply_trim` with its fixed 200-character limit: short
text is returned unchanged (not trimmed); otherwise sentences are kept
up to the limit, falling back to a hard cut at 197 plus an ellipsis. -/
def applyTrim (text : List Char) : List Char × Bool :=
  if text.length ≤ 200 then (text, false)
  else
    let r := trimLoop 200 [] (sentPairs text)
    if r.isEmpty then (text.take 197 ++ ['…'], true) else (r, true)

/-- The deterministic repair pass as a text-to-text function: pattern
removal followed by length trimming. -/
def detPass (text : List Char) : List Char :=
  (applyTrim (applyRemove text).1).1

/-- Embedding of `FixResult` in `output_fixer.py`. -/
structure FixResult where
  success : Bool
  fixed_text : String
  applied_fixes : List String := []
  remaining_violations : List RuleViolation := []
deriving Repr, DecidableEq

/-- The rewrite-service oracle of `_apply_llm_rewrite`: `none` models a
raised exception or falsy response (the original text is kept), `some`
is the returned rewrite. -/
abbrev RewriteOracle := String → List RuleViolation → String → Option String

/-- Quote characters stripped from a rewrite (`fixed.strip('"\x27')`). -/
def quoteChar (c : Char) : Bool :=
  c = '"' ∨ c = Char.ofNat 39

/-- Embedding of `OutputFixer._apply_llm_rewrite`: on success the rewrite replaces the
text wholesale, stripped of whitespace and surrounding quotes; on any
failure the text is returned unchanged. -/
def applyLlmRewrite (rx : RewriteOracle) (text : String)
    (violations : List RuleViolation) (user_message : String) : String :=
  match rx text violations user_message with
  | some s =>
    String.mk (((pyStrip s.toList).dropWhile quoteChar).reverse.dropWhile quoteChar).reverse
  | none => text

/-- The REMOVE/TRIM sweep of `OutputFixer.fix` step 1: fold over the
violations in order, applying the matching deterministic repair. -/
def fixStep1 : String → List RuleViolation → String
  | text, [] => text
  | text, v :: vs =>
    match v.suggested_action with
    | .remove => fixStep1 (String.mk (applyRemove text.toList).1) vs
    | .trim => fixStep1 (String.mk (applyTrim text.toList).1) vs
    | _ => fixStep1 text vs

/-- Embedding of `OutputFixer.fix`: valid input is returned as-is; any BLOCK violation
makes the whole attempt fail with empty text; otherwise REMOVE/TRIM run
deterministically and REWRITE violations are batched into one service
call. -/
def fixerFix (rx : RewriteOracle) (original_text : String)
    (vr : ValidationResult) (user_message : String) : FixResult :=
  if vr.is_valid then
    { success := true, fixed_text := original_text }
  else
    let blocks := vr.violations.filter (fun v => v.suggested_action = .block)
    if !blocks.isEmpty then
      { success := false, fixed_text := "", remaining_violations := blocks }
    else
      let t1 := fixStep1 original_text vr.violations
      let rewrites := vr.violations.filter (fun v => v.suggested_action = .rewrite)
      let t2 :=
        if !rewrites.isEmpty then applyLlmRewrite rx t1 rewrites user_message
        else t1
      { success := true, fixed_text := t2 }

/-! ### Turn pipelines (`orchestrator.py` and `graph/nodes.py`,
`graph/dialogue_graph.py`) -/

/-- A generation oracle for the legacy loop: attempt index and current
instruction to the generated reply (`actor.generate_reply`). -/
abbrev LegacyGen := Nat → Option String → String

/-- A critic oracle: the reply to `(is_ok, feedback)`
(`critic.check_reply`, already including its fail-open behaviour). -/
abbrev Critic := String → Bool × String

/-- Instruction accumulation of the legacy loop
(`_process_chat_turn_legacy` lines 117-121). -/
def appendFixInstr (instr : Option String) (feedback : String) : String :=
  match instr with
  | some cur => cur ++ "\n[修正指示] " ++ feedback
  | none => "[修正指示] " ++ feedback

/-- The Actor-Critic retry loop of `_process_chat_turn_legacy` (lines
100-125): generate, have the critic judge, stop on approval, otherwise
accumulate feedback; on the last attempt the reply is used anyway.
`remaining` is `max_retries - attempt`; returns the final reply and the
number of generation calls made. -/
def legacyGo (gen : LegacyGen) (critic : Critic) :
    Nat → Nat → Option String → String × Nat
  | attempt, remaining, instr =>
    let reply := gen attempt instr
    let j := critic reply
    if j.1 then (reply, 1)
    else
      match remaining with
      | 0 => (reply, 1)
      | r + 1 =>
        let next := legacyGo gen critic (attempt + 1) r (some (appendFixInstr instr j.2))
        (next.1, next.2 + 1)

/-- One legacy turn's generation loop, `max_retries = 2` in the source
but kept general. -/
def legacyTurn (gen : LegacyGen) (critic : Critic) (maxRetries : Nat)
    (instr : Option String) : String × Nat :=
  legacyGo gen critic 0 maxRetries instr

/-- A generation oracle for the graph loop: `node_generate` regenerates
the draft on every visit from the same turn inputs, indexed by the call
number. -/
abbrev GraphGen := Nat → String

/-- A validation oracle for the graph loop: call index and draft to the
validation result (`none` models `node_validate` storing no result —
missing rules or a validator error). -/
abbrev GraphVal := Nat → String → Option ValidationResult

/-- The `generate → validate → (should_retry) → fix → generate` loop of
the compiled dialogue graph.  `should_retry` sends the state to `save`
when there is no validation result, the result is valid, or
`retry_count ≥ max_retries`; otherwise `node_fix` runs `OutputFixer.fix`
(its output is overwritten by the next `node_generate`), increments
`retry_count` and records an error when the fix failed.  Returns the
saved reply, the generation-call count, the last validation result, and
the error log.  `fuel` only bounds the recursion; it never runs out when
it starts at `max_retries + 1`. -/
def graphGo (gen : GraphGen) (valf : GraphVal) (rx : RewriteOracle)
    (userMessage : String) (maxRetries : Nat) :
    Nat → Nat → List String → Nat → String × Nat × Option ValidationResult × List String
  | callIdx, retry, errors, fuel =>
    let draft := gen callIdx
    let vr := valf callIdx draft
    match fuel, vr with
    | f + 1, some v =>
      if v.is_valid then (draft, 1, vr, errors)
      else if maxRetries ≤ retry then (draft, 1, vr, errors)
      else
        let fx := fixerFix rx draft v userMessage
        let errors' :=
          if fx.success then errors else errors ++ ["Fix failed: blocked content"]
        let next := graphGo gen valf rx userMessage maxRetries (callIdx + 1) (retry + 1) errors' f
        (next.1, next.2.1 + 1, next.2.2)
    | _, _ => (draft, 1, vr, errors)

/-- One graph turn's generate/validate/fix loop, entered with
`retry_count = 0` and `max_retries = 2` in `node_load_state` /
`run_dialogue_graph` (kept general). -/
def graphTurn (gen : GraphGen) (valf : GraphVal) (rx : RewriteOracle)
    (userMessage : String) (maxRetries : Nat) :
    String × Nat × Option ValidationResult × List String :=
  graphGo gen valf rx userMessage maxRetries 0 0 [] (maxRetries + 1)

/-- Observable events of one turn against external systems: the state
store commit and the candidate-generation calls. -/
inductive TurnEvent where
  | commitState
  | genCall
deriving Repr, DecidableEq

/-- The state-store/generation event trace of
`_process_chat_turn_legacy`: `update_state(user_id, new_state)` runs at
line 82, directly after the observer, before the Actor-Critic loop
(lines 100-125) issues its generation calls. -/
def legacyTurnTrace (gen : LegacyGen) (critic : Critic) (maxRetries : Nat)
    (instr : Option String) : List TurnEvent :=
  TurnEvent.commitState :: List.replicate (legacyTurn gen critic maxRetries instr).2 .genCall

/-- The state-store/generation event trace of the graph pipeline:
`node_observe` calls `save_state` before the `generate → validate → fix`
cycle runs (`load_state → observe → retrieve_memory → select_rules →
generate` edges). -/
def graphTurnTrace (gen : GraphGen) (valf : GraphVal) (rx : RewriteOracle)
    (userMessage : String) (maxRetries : Nat) : List TurnEvent :=
  TurnEvent.commitState ::
    List.replicate (graphTurn gen valf rx userMessage maxRetries).2.1 .genCall

/-- A concrete mandatory forbidden-pattern rule with action `block`,
matching exactly the text `"NG"` (used for concrete evaluations). -/
def ngRule : HardRule :=
  { id := "no_ng", descr := "NG語の禁止", check_type := .regex_forbidden
    action_on_violation := .block, fix_instruction := ""
    patternSearch := some (fun s => if s = "NG" then some "NG" else none) }

/-- A concrete semantic advisory rule (used for concrete evaluations). -/
def semRule : SoftRule :=
  { id := "s1", descr := "意味チェック", check_type := .llm_semantic
    action_on_violation := .rewrite, fix_instruction := "" }

/-- A concrete per-turn rule snapshot: one blocked mandatory rule plus
one semantic advisory rule. -/
def selNG : SelectedRules :=
  { hard_rules := [ngRule], soft_rules := [semRule] }

/-- The empty custom-checker registry. -/
def noCustom : CustomCheckers := fun _ => none

/-! ### Helper lemmas -/

/-- Lemma: `setKey` stores the new value under its key. -/
theorem lookup_setKey_same (k : String) (v : PyVal) (l : List (String × PyVal)) :
    (setKey k v l).lookup k = some v := by
  induction l with
  | nil => simp [setKey, List.lookup]
  | cons kv rest ih =>
    rcases kv with ⟨a, b⟩
    by_cases h : a = k
    · simp [setKey, h, List.lookup]
    · have hba : (k == a) = false := by
        simp [Ne.symm h]
      simp [setKey, h, List.lookup, hba, ih]

/-- Lemma: `setKey` leaves other keys untouched. -/
theorem lookup_setKey_other (k k' : String) (v : PyVal) (l : List (String × PyVal))
    (h : k' ≠ k) : (setKey k v l).lookup k' = l.lookup k' := by
  have h0 : (k' == k) = false := by simp [h]
  induction l with
  | nil => simp [setKey, List.lookup, h0]
  | cons kv rest ih =>
    rcases kv with ⟨a, b⟩
    by_cases hk : a = k
    · subst hk
      simp [setKey, List.lookup, h0]
    · by_cases ha : k' = a
      · subst ha
        simp [setKey, hk, List.lookup]
      · have h1 : (k' == a) = false := by simp [ha]
        simp [setKey, hk, List.lookup, h1, ih]

/-- The legacy Actor-Critic loop makes at most `remaining + 1`
generation calls. -/
theorem legacyGo_count_le (gen : LegacyGen) (critic : Critic) :
    ∀ remaining attempt instr,
      (legacyGo gen critic attempt remaining instr).2 ≤ remaining + 1 := by
  intro remaining
  induction remaining with
  | zero =>
    intro attempt instr
    simp only [legacyGo]
    split
    · simp
    · simp
  | succ r ih =>
    intro attempt instr
    simp only [legacyGo]
    split
    · simp
    · have := ih (attempt + 1) (some (appendFixInstr instr (critic (gen attempt instr)).2))
      simpa using Nat.succ_le_succ this

/-- The graph loop makes at most `maxRetries - retry + 1` generation
calls from a state with `retry_count = retry`. -/
theorem graphGo_count_le (gen : GraphGen) (valf : GraphVal) (rx : RewriteOracle)
    (msg : String) (maxRetries : Nat) :
    ∀ fuel callIdx retry errors,
      (graphGo gen valf rx msg maxRetries callIdx retry errors fuel).2.1 ≤
        maxRetries - retry + 1 := by
  intro fuel
  induction fuel with
  | zero =>
    intro callIdx retry errors
    cases h : valf callIdx (gen callIdx) <;> simp [graphGo, h]
  | succ f ih =>
    intro callIdx retry errors
    cases h : valf callIdx (gen callIdx) with
    | none => simp [graphGo, h]
    | some v =>
      by_cases hv : v.is_valid
      · simp [graphGo, h, hv]
      · by_cases hr : maxRetries ≤ retry
        · simp [graphGo, h, hv, hr]
        · have ihx := ih (callIdx + 1) (retry + 1)
            (if (fixerFix rx (gen callIdx) v msg).success then errors
             else errors ++ ["Fix failed: blocked content"])
          have hsub : maxRetries - (retry + 1) + 1 ≤ maxRetries - retry := by omega
          simp [graphGo, h, hv, hr]
          omega

/-- Whitespace collapse is the identity on whitespace-free text. -/
theorem collapseWsGo_id :
    ∀ fuel l, (∀ ch ∈ l, pySpace ch = false) → collapseWsGo fuel l = l := by
  intro fuel
  induction fuel with
  | zero => intro l _; cases l <;> simp [collapseWsGo]
  | succ f ih =>
    intro l hl
    cases l with
    | nil => simp [collapseWsGo]
    | cons x rest =>
      have hx : pySpace x = false := hl x (List.mem_cons_self x rest)
      have hrest : ∀ ch ∈ rest, pySpace ch = false :=
        fun ch hch => hl ch (List.mem_cons_of_mem x hch)
      simp [collapseWsGo, hx, ih rest hrest]

/-- Lemma: `dropWhile` is the identity when no element satisfies the predicate.
-/
theorem dropWhile_id_of_none (p : Char → Bool) (l : List Char)
    (h : ∀ ch ∈ l, p ch = false) : l.dropWhile p = l := by
  cases l with
  | nil => simp
  | cons x rest => simp [List.dropWhile_cons, h x (List.mem_cons_self x rest)]

/-- Lemma: `str.strip()` is the identity on whitespace-free text. -/
theorem pyStrip_id (l : List Char) (h : ∀ ch ∈ l, pySpace ch = false) :
    pyStrip l = l := by
  unfold pyStrip
  rw [dropWhile_id_of_none pySpace l h]
  rw [dropWhile_id_of_none pySpace l.reverse
    (fun ch hch => h ch (List.mem_reverse.mp hch))]
  simp

/-! ### Claims -/

/-- C8 counterexample: the claim quantifies over every decay rate
greater than 0, but at rate 20 the multiplier `1 - 20*0.1 = -1` flips
the sign and leaves the absolute value unchanged (`10 → -10`), so the
absolute values of pleasure and arousal are not strictly reduced. -/
theorem C8_decay_counterexample :
    (0 : ℚ) < 20 ∧
    (decay 20 ⟨10, 10, 10⟩).pleasure = -10 ∧
    ¬ |(decay 20 ⟨10, 10, 10⟩).pleasure| <
        |(⟨10, 10, 10⟩ : EmotionState).pleasure| := by
  refine ⟨by norm_num, by norm_num [decay], ?_⟩
  norm_num [decay]

/-- C8 (amended): `decay(rate)` multiplies pleasure and arousal by
`1 - rate*0.1` and leaves dominance unchanged; for `0 < rate < 20` and
nonzero initial values the absolute values strictly decrease; and
`decay(1.0)` maps `{10, 10, 10}` to `{9.0, 9.0, 10.0}`. -/
theorem C8_decay_amended (rate : ℚ) (e : EmotionState)
    (h1 : 0 < rate) (h2 : rate < 20) :
    (decay rate e).pleasure = e.pleasure * (1 - rate * (1 / 10)) ∧
    (decay rate e).arousal = e.arousal * (1 - rate * (1 / 10)) ∧
    (decay rate e).dominance = e.dominance ∧
    (e.pleasure ≠ 0 → |(decay rate e).pleasure| < |e.pleasure|) ∧
    (e.arousal ≠ 0 → |(decay rate e).arousal| < |e.arousal|) ∧
    decay 1 ⟨10, 10, 10⟩ = ⟨9, 9, 10⟩ := by
  have hfac : |1 - rate * (1 / 10)| < 1 := by
    rw [abs_lt]
    constructor <;> nlinarith
  refine ⟨rfl, rfl, rfl, ?_, ?_, by norm_num [decay]⟩
  · intro hp
    calc |(decay rate e).pleasure| = |e.pleasure| * |1 - rate * (1 / 10)| := by
          rw [show (decay rate e).pleasure = e.pleasure * (1 - rate * (1 / 10)) from rfl,
            abs_mul]
      _ < |e.pleasure| * 1 :=
          mul_lt_mul_of_pos_left hfac (abs_pos.mpr hp)
      _ = |e.pleasure| := mul_one _
  · intro ha
    calc |(decay rate e).arousal| = |e.arousal| * |1 - rate * (1 / 10)| := by
          rw [show (decay rate e).arousal = e.arousal * (1 - rate * (1 / 10)) from rfl,
            abs_mul]
      _ < |e.arousal| * 1 :=
          mul_lt_mul_of_pos_left hfac (abs_pos.mpr ha)
      _ = |e.arousal| := mul_one _

/-- C8 witness: the amended decay facts at rate 1 on affect
`{10, 10, 10}`. -/
theorem C8_decay_amended_witness :
    (0 : ℚ) < 1 ∧ (1 : ℚ) < 20 ∧
    ((decay 1 ⟨10, 10, 10⟩).pleasure = 10 * (1 - 1 * (1 / 10)) ∧
     (decay 1 ⟨10, 10, 10⟩).arousal = 10 * (1 - 1 * (1 / 10)) ∧
     (decay 1 ⟨10, 10, 10⟩).dominance = 10 ∧
     ((10 : ℚ) ≠ 0 → |(decay 1 ⟨10, 10, 10⟩).pleasure| < |(10 : ℚ)|) ∧
     ((10 : ℚ) ≠ 0 → |(decay 1 ⟨10, 10, 10⟩).arousal| < |(10 : ℚ)|) ∧
     decay 1 ⟨10, 10, 10⟩ = ⟨9, 9, 10⟩) :=
  ⟨by norm_num, by norm_num,
    C8_decay_amended 1 ⟨10, 10, 10⟩ (by norm_num) (by norm_num)⟩

/-- Lemma: `collapseWs` is the identity on whitespace-free text. -/
theorem collapseWs_id (l : List Char) (h : ∀ ch ∈ l, pySpace ch = false) :
    collapseWs l = l :=
  collapseWsGo_id l.length l h

/-- C9 counterexample: one sweep per pattern is not a fixpoint — on
`"**x*k*"` the single `\*[^*]+\*` sweep removes `*x*` and leaves
`"*k*"`, which a second pass removes entirely, so the deterministic
pass applied twice differs from the pass applied once. -/
theorem C9_detPass_counterexample :
    detPass "**x*k*".toList = "*k*".toList ∧
    detPass (detPass "**x*k*".toList) = [] ∧
    detPass (detPass "**x*k*".toList) ≠ detPass "**x*k*".toList :=
  ⟨by decide, by decide, by decide⟩

/-- Lemma: a `subScan` sweep is the identity when its pattern has no
match in the text. -/
theorem subScanGo_id_of_clean (o c : Char) :
    ∀ fuel l, hasDelimMatch o c l = false → subScanGo o c fuel l = l := by
  intro fuel
  induction fuel with
  | zero => intro l _; cases l <;> simp [subScanGo]
  | succ f ih =>
    intro l hl
    cases l with
    | nil => simp [subScanGo]
    | cons x rest =>
      by_cases hx : x = o
      · subst hx
        cases hidx : rest.findIdx? (fun ch => ch = c) with
        | some idx =>
          by_cases hi : 1 ≤ idx
          · exfalso
            simp [hasDelimMatch, hasDelimMatchGo, hidx, hi] at hl
          · have hrest : hasDelimMatch x c rest = false := by
              simpa [hasDelimMatch, hasDelimMatchGo, hidx, hi] using hl
            simp [subScanGo, hidx, hi, ih rest hrest]
        | none =>
          have hrest : hasDelimMatch x c rest = false := by
            simpa [hasDelimMatch, hasDelimMatchGo, hidx] using hl
          simp [subScanGo, hidx, ih rest hrest]
      · have hrest : hasDelimMatch o c rest = false := by
          simpa [hasDelimMatch, hasDelimMatchGo, hx] using hl
        simp [subScanGo, hx, ih rest hrest]

/-- Lemma: `subScan` is the identity on match-free text. -/
theorem subScan_id_of_clean (o c : Char) (l : List Char)
    (h : hasDelimMatch o c l = false) : subScan o c l = l :=
  subScanGo_id_of_clean o c l.length l h

/-- Lemma: the `セイラ[:：]` sweep is the identity when its pattern has
no match in the text. -/
theorem removeSeiraGo_id_of_clean :
    ∀ fuel l, hasSeiraMatch l = false → removeSeiraGo fuel l = l := by
  intro fuel
  induction fuel with
  | zero => intro l _; cases l <;> simp [removeSeiraGo]
  | succ f ih =>
    intro l hl
    cases l with
    | nil => simp [removeSeiraGo]
    | cons x rest =>
      cases hsh : seiraHead (x :: rest) with
      | some r2 =>
        exfalso
        simp [hasSeiraMatch, hasSeiraMatchGo, hsh] at hl
      | none =>
        have hrest : hasSeiraMatch rest = false := by
          simpa [hasSeiraMatch, hasSeiraMatchGo, hsh] using hl
        simp [removeSeiraGo, hsh, ih rest hrest]

/-- Lemma: `removeSeira` is the identity on match-free text. -/
theorem removeSeira_id_of_clean (l : List Char)
    (h : hasSeiraMatch l = false) : removeSeira l = l :=
  removeSeiraGo_id_of_clean l.length l h

/-- C9 (amended): on text free of every removal pattern (no match of
`（[^）]+）`, `\([^)]+\)`, `\*[^*]+\*`, `【[^】]+】` or `セイラ[:：]\s*`),
free of whitespace (which the pass also collapses and strips), and
within the 200-character trim limit, the deterministic pass returns the
text unchanged, and is therefore idempotent there; general idempotence
fails (see the counterexample). -/
theorem C9_detPass_amended (text : List Char)
    (h1 : hasDelimMatch '（' '）' text = false)
    (h2 : hasDelimMatch '(' ')' text = false)
    (h3 : hasDelimMatch '*' '*' text = false)
    (h4 : hasDelimMatch '【' '】' text = false)
    (h5 : hasSeiraMatch text = false)
    (h6 : ∀ ch ∈ text, pySpace ch = false)
    (h7 : text.length ≤ 200) :
    detPass text = text ∧ detPass (detPass text) = detPass text := by
  have hsweep : narrationSweeps text = text := by
    unfold narrationSweeps
    rw [subScan_id_of_clean _ _ _ h1, subScan_id_of_clean _ _ _ h2,
      subScan_id_of_clean _ _ _ h3, subScan_id_of_clean _ _ _ h4,
      removeSeira_id_of_clean _ h5]
  have hpass : detPass text = text := by
    simp only [detPass, applyRemove]
    rw [hsweep, collapseWs_id _ h6, pyStrip_id _ h6]
    simp [applyTrim, h7]
  exact ⟨hpass, by rw [hpass, hpass]⟩

/-- C9 witness: the amended clean-text fact on a concrete text that
contains opener characters (`セ` and `(`) but no match of any removal
pattern. -/
theorem C9_detPass_amended_witness :
    (hasDelimMatch '（' '）' "セーターと(a".toList = false ∧
     hasDelimMatch '(' ')' "セーターと(a".toList = false ∧
     hasDelimMatch '*' '*' "セーターと(a".toList = false ∧
     hasDelimMatch '【' '】' "セーターと(a".toList = false ∧
     hasSeiraMatch "セーターと(a".toList = false ∧
     (∀ ch ∈ "セーターと(a".toList, pySpace ch = false) ∧
     "セーターと(a".toList.length ≤ 200) ∧
    (detPass "セーターと(a".toList = "セーターと(a".toList ∧
     detPass (detPass "セーターと(a".toList) = detPass "セーターと(a".toList) :=
  ⟨by decide,
    C9_detPass_amended "セーターと(a".toList (by decide) (by decide) (by decide)
      (by decide) (by decide) (by decide) (by decide)⟩

/-- C10: service-backed judgment checks fail open — the batched
semantic check yields zero violations whenever the LLM call raised,
returned a falsy response, or returned unparseable output (so
validation reports exactly the local violations), and the legacy
critic's `check_reply` returns `(True, "")` on any exception. -/
theorem C10_fail_open :
    (∀ rules : List SoftRule,
       checkSoftRulesLLM rules .raised = [] ∧
       checkSoftRulesLLM rules .noResponse = [] ∧
       checkSoftRulesLLM rules .unparseable = []) ∧
    (∀ (custom : CustomCheckers) (t m : String) (sel : SelectedRules)
       (hist : List (String × String)),
       (validate custom .raised t m sel hist).violations =
         localViolations custom t m sel hist ∧
       (validate custom .raised t m sel hist).is_valid =
         (localViolations custom t m sel hist).isEmpty) ∧
    checkReply .raised = (true, "") := by
  have hz : ∀ rules : List SoftRule, ∀ o : LlmOutcome, o = .raised ∨
      o = .noResponse ∨ o = .unparseable → checkSoftRulesLLM rules o = [] := by
    intro rules o ho
    rcases ho with h | h | h <;> subst h <;>
      by_cases h : rules.isEmpty <;> simp [checkSoftRulesLLM, h]
  refine ⟨fun rules => ⟨hz rules _ (Or.inl rfl), hz rules _ (Or.inr (Or.inl rfl)),
    hz rules _ (Or.inr (Or.inr rfl))⟩, ?_, rfl⟩
  intro custom t m sel hist
  simp only [validate]
  constructor
  · split <;> simp [hz _ _ (Or.inl rfl)]
  · split <;> simp [hz _ _ (Or.inl rfl)]

/-- C7: a matched mandatory pattern/length rule produces a critical
violation exactly when its configured action is `block` (high
otherwise), and — when semantic advisory rules are active — the batched
LLM semantic check is skipped if and only if the local steps 1-3
already produced a critical violation. -/
theorem C7_severity_and_skip (custom : CustomCheckers) (o : LlmOutcome)
    (t m : String) (sel : SelectedRules) (hist : List (String × String)) :
    (∀ (r : HardRule) (v : RuleViolation),
       (r.check_type = .regex_forbidden ∨ r.check_type = .regex_required ∨
        r.check_type = .length_max ∨ r.check_type = .length_min) →
       checkHardRule custom r t hist = some v →
       v.severity =
         (if r.action_on_violation = .block then ViolationSeverity.critical
          else ViolationSeverity.high)) ∧
    (llmSoftRules sel ≠ [] →
       ((localViolations custom t m sel hist).any
           (fun v => v.severity = .critical) = true →
          (validate custom o t m sel hist).violations =
            localViolations custom t m sel hist) ∧
       ((localViolations custom t m sel hist).any
           (fun v => v.severity = .critical) = false →
          (validate custom o t m sel hist).violations =
            localViolations custom t m sel hist ++
              checkSoftRulesLLM (llmSoftRules sel) o)) := by
  constructor
  · intro r v hstd hr
    have h1 : ¬ (r.check_type = .custom_function ∧ r.function_name.isSome) := by
      rcases hstd with h | h | h | h <;> simp [h]
    have h2 : ¬ r.check_type = .llm_semantic := by
      rcases hstd with h | h | h | h <;> simp [h]
    rw [checkHardRule, if_neg h1, if_neg h2] at hr
    cases hh : hardRuleCheck r t with
    | none => rw [hh] at hr; simp at hr
    | some d =>
      rw [hh] at hr
      simp only [Option.map_some'] at hr    -- now hr names the violation
      rw [← Option.some_inj.mp hr]
  · intro hne
    have hni : (llmSoftRules sel).isEmpty = false := by
      cases hl : llmSoftRules sel with
      | nil => exact absurd hl hne
      | cons a b => simp
    constructor
    · intro hcrit
      simp [validate, hcrit]
    · intro hcrit
      simp [validate, hcrit, hni]

/-- C7 witness: the blocked forbidden-pattern rule matching `"NG"`
yields a critical violation on the text `"NG"`, and validation with that
critical local violation returns only the local violations (the
semantic advisory rule is skipped). -/
theorem C7_severity_and_skip_witness :
    (ngRule.check_type = .regex_forbidden ∨ ngRule.check_type = .regex_required ∨
     ngRule.check_type = .length_max ∨ ngRule.check_type = .length_min) ∧
    ((⟨"no_ng", "no_ng", "NG語の禁止", .critical,
        "禁止パターン検出: \x27NG\x27", .block, "", none⟩ : RuleViolation).severity =
      (if ngRule.action_on_violation = .block then ViolationSeverity.critical
       else ViolationSeverity.high)) ∧
    (localViolations noCustom "NG" "" selNG []).any
      (fun v => v.severity = .critical) = true ∧
    (validate noCustom (.parsed [("s1", "x")]) "NG" "" selNG []).violations =
      localViolations noCustom "NG" "" selNG [] := by
  refine ⟨Or.inl rfl, ?_, rfl, ?_⟩
  · exact (C7_severity_and_skip noCustom (.parsed [("s1", "x")])
      "NG" "" selNG []).1 ngRule _ (Or.inl rfl) rfl
  · exact ((C7_severity_and_skip noCustom (.parsed [("s1", "x")])
      "NG" "" selNG []).2
      (by intro h; simpa [llmSoftRules, selNG, semRule] using congrArg List.length h)).1
      rfl

/-- C5 counterexample: the rule selector's evaluator does not treat an
unevaluable condition as "not satisfied" — a predicate whose only key is
unknown evaluates to `True` (the key is silently skipped), and a type
mismatch (numeric turn count against a string threshold) raises past the
evaluator instead of returning `False`. -/
theorem C5_condition_counterexample :
    evalRuleCondition [("totally_unknown_key", .numV 1)] {} "" = .ok true ∧
    evalRuleCondition
      [("turn_count_in_phase", .dictV [("$gte", .strV "three")])] {} "" =
      .error () := by
  exact ⟨rfl, rfl⟩

/-- C5 (amended): only the observer's trigger evaluation is fail-closed
(an evaluation error never fires a transition); the rule selector's
evaluator instead skips unknown keys — treating the clause as satisfied
— and propagates type-mismatch errors to its caller. -/
theorem C5_condition_amended :
    (∀ (phases : Phases) (judge : ConsentJudge) (state : UserState)
       (msg : String) (hist : List (String × String)) (pd : PhaseDef)
       (np : String) (cond : PyExpr),
       phases.lookup state.scenario_state.current_phase = some pd →
       pd.next_phase = some np →
       pd.trigger_condition = some cond →
       (let vc := consentStep judge state.scenario_state.vars msg hist
        let st1 : UserState :=
          { state with
              scenario_state := { state.scenario_state with vars := vc.1 } }
        pyEval (mkTriggerCtx st1 vc.2) cond = .error ()) →
       (checkScenarioTrigger phases judge state msg hist).2.1 = false) ∧
    (∀ (k : String) (v : PyVal) (st : UserState) (m : String)
       (rest : List (String × PyVal)),
       k ∉ ["current_scene", "current_phase", "turn_count_in_phase",
            "arousal", "pleasure", "dominance", "context_keywords",
            "emotion", "variables"] →
       evalRuleCondition ((k, v) :: rest) st m = evalRuleCondition rest st m) ∧
    (∀ (st : UserState) (m : String),
       evalRuleCondition
         [("turn_count_in_phase", .dictV [("$gte", .strV "x")])] st m =
         .error ()) := by
  refine ⟨?_, ?_, ?_⟩
  · intro phases judge state msg hist pd np cond hpd hnp hcond herr
    simp only at herr
    simp only [checkScenarioTrigger, hpd, hnp, hcond]
    by_cases hne : np = ""
    · simp [hne]
    · simp only [hne, if_false, ite_false]
      rw [herr]
      split
      · rename_i hfired
        simp at hfired
      · split
        · split
          · split <;> simp
          · simp
        · simp
  · intro k v st m rest hk
    simp only [List.mem_cons, List.mem_singleton] at hk
    push_neg at hk
    obtain ⟨h1, h2, h3, h4, h5, h6, h7, h8, h9, -⟩ := hk
    have hkey : evalConditionKey st m k v = .ok true := by
      simp [evalConditionKey, h1, h2, h3, h4, h5, h6, h7, h8, h9]
    simp only [evalRuleCondition]
    rw [hkey]
    rfl
  · intro st m
    rfl

/-- C5 witness: the observer treats a `NameError` condition as "no
transition"; the rule selector skips the unknown key `"mystery"` and
raises on the string-vs-number threshold. -/
theorem C5_condition_amended_witness :
    (checkScenarioTrigger
       [("a", ⟨some "b", some (.name "no_such"), "", none, []⟩)]
       (fun _ _ => (false, 0))
       { scenario_state :=
           { current_phase := "a", current_scene := "s"
             turn_count_in_phase := 0, vars := [] } } "" []).2.1 = false ∧
    evalRuleCondition [("mystery", .numV 1)] {} "" =
      evalRuleCondition [] {} "" ∧
    evalRuleCondition
      [("turn_count_in_phase", .dictV [("$gte", .strV "x")])] {} "" =
      .error () := by
  refine ⟨?_, ?_, C5_condition_amended.2.2 {} ""⟩
  · exact C5_condition_amended.1 _ _ _ _ _ _ _ _ rfl rfl rfl rfl
  · exact C5_condition_amended.2.1 "mystery" _ {} "" [] (by decide)

/-- C4: when `awaiting_consent` is truthy at the consent-judgment step
and the utterance is non-empty, `consent_for_next_phase` is set to true
exactly when the judgment affirms consent with confidence `≥ 0.6`; in
every other outcome `awaiting_consent` is reset to false and
`consent_for_next_phase` stays false (given it was false before). -/
theorem C4_consent_judgment (judge : ConsentJudge)
    (vars : List (String × PyVal)) (msg : String)
    (hist : List (String × String))
    (hA : varTruthy vars "awaiting_consent" = true)
    (hm : msg ≠ "")
    (hC : varTruthy vars "consent_for_next_phase" = false) :
    (consentStep judge vars msg hist).2 =
      ((judge msg (historyLastAssistant hist)).1 &&
        decide ((3 : ℚ) / 5 ≤ (judge msg (historyLastAssistant hist)).2)) ∧
    ((judge msg (historyLastAssistant hist)).1 = true ∧
       (3 : ℚ) / 5 ≤ (judge msg (historyLastAssistant hist)).2 →
       (consentStep judge vars msg hist).1.lookup "consent_for_next_phase" =
         some (.boolV true)) ∧
    (¬ ((judge msg (historyLastAssistant hist)).1 = true ∧
        (3 : ℚ) / 5 ≤ (judge msg (historyLastAssistant hist)).2) →
       varTruthy (consentStep judge vars msg hist).1 "awaiting_consent" = false ∧
       varTruthy (consentStep judge vars msg hist).1 "consent_for_next_phase"
         = false) := by
  by_cases hj : (judge msg (historyLastAssistant hist)).1 = true ∧
      (3 : ℚ) / 5 ≤ (judge msg (historyLastAssistant hist)).2
  · refine ⟨?_, fun _ => ?_, fun h => absurd hj h⟩
    · simp [consentStep, hA, hm, hj]
    · simp only [consentStep, hA, hm, hj, ne_eq, not_false_iff, and_self,
        if_true, true_and]
      simp [lookup_setKey_same]
  · refine ⟨?_, fun h => absurd h hj, fun _ => ?_⟩
    · have : ((judge msg (historyLastAssistant hist)).1 &&
          decide ((3 : ℚ) / 5 ≤ (judge msg (historyLastAssistant hist)).2))
          = false := by
        rcases Decidable.not_and_iff_or_not.mp hj with h | h <;> simp_all
      simp [consentStep, hA, hm, hj, hC, this]
    · constructor
      · simp only [consentStep, hA, hm, hj, ne_eq]
        simp [varTruthy, lookup_setKey_same, pyTruthy]
      · simp only [consentStep, hA, hm, hj, ne_eq]
        have hne : ("consent_for_next_phase" : String) ≠ "awaiting_consent" := by
          decide
        simp only [varTruthy] at hC ⊢
        simp [lookup_setKey_other _ _ _ _ hne, hC]

/-- C4 witness: a concrete affirming judgment with confidence 1 sets the
consent flag, evaluated on a state that awaits consent. -/
theorem C4_consent_judgment_witness :
    varTruthy [("awaiting_consent", .boolV true)] "awaiting_consent" = true ∧
    ("うん" : String) ≠ "" ∧
    varTruthy [("awaiting_consent", .boolV true)] "consent_for_next_phase"
      = false ∧
    (consentStep (fun _ _ => (true, 1)) [("awaiting_consent", .boolV true)]
        "うん" []).2 = true ∧
    (consentStep (fun _ _ => (true, 1)) [("awaiting_consent", .boolV true)]
        "うん" []).1.lookup "consent_for_next_phase" = some (.boolV true) := by
  have h := C4_consent_judgment (fun _ _ => (true, 1))
    [("awaiting_consent", .boolV true)] "うん" [] rfl (by decide) rfl
  refine ⟨rfl, by decide, rfl, ?_, h.2.1 ⟨rfl, by norm_num⟩⟩
  rw [h.1]
  norm_num

/-- C3 counterexample: `update_state` increments the turn counter
*before* the trigger check, not after the transition bookkeeping.  In
phase `"a"` with trigger `turn_count_in_phase >= 1` and a stored count
of 0, the turn transitions (the condition sees the pre-incremented
count 1) and ends with `turn_count_in_phase = 0`; under the claim the
condition would see 0 (no transition), and any turn would end with a
count of at least 1. -/
theorem C3_turn_count_counterexample :
    (updateStateFallback
       [("a", ⟨some "b",
          some (.cmp .ge (.name "turn_count_in_phase") (.const (.numV 1))),
          "", none, ["sa"]⟩),
        ("b", ⟨none, none, "", none, ["sb1", "sb2"]⟩)]
       (fun _ _ => (false, 0)) "x"
       { scenario_state :=
           { current_phase := "a", current_scene := "sa"
             turn_count_in_phase := 0, vars := [] } }
       []).1.scenario_state.current_phase = "b" ∧
    (updateStateFallback
       [("a", ⟨some "b",
          some (.cmp .ge (.name "turn_count_in_phase") (.const (.numV 1))),
          "", none, ["sa"]⟩),
        ("b", ⟨none, none, "", none, ["sb1", "sb2"]⟩)]
       (fun _ _ => (false, 0)) "x"
       { scenario_state :=
           { current_phase := "a", current_scene := "sa"
             turn_count_in_phase := 0, vars := [] } }
       []).1.scenario_state.turn_count_in_phase = 0 ∧
    (updateStateFallback
       [("a", ⟨some "b",
          some (.cmp .ge (.name "turn_count_in_phase") (.const (.numV 1))),
          "", none, ["sa"]⟩),
        ("b", ⟨none, none, "", none, ["sb1", "sb2"]⟩)]
       (fun _ _ => (false, 0)) "x"
       { scenario_state :=
           { current_phase := "a", current_scene := "sa"
             turn_count_in_phase := 0, vars := [] } }
       []).1.scenario_state.current_scene = "sb1" := by
  exact ⟨by decide, by decide, by decide⟩

/-- C3 (amended): the turn counter is incremented once per turn *before*
the trigger evaluation (which therefore sees the incremented count).
When the trigger fires, the phase advances, the counter is reset to 0
and stays 0, both consent flags become false, the scene becomes the
first scene of the new phase in declaration order, and the actor
instruction signals the phase change; when it does not fire, the turn
ends with the counter at its old value plus one and the phase
unchanged. -/
theorem C3_transition_amended (phases : Phases) (judge : ConsentJudge)
    (msg : String) (state : UserState) (hist : List (String × String))
    (pd : PhaseDef) (np : String) (cond : PyExpr)
    (hpd : phases.lookup state.scenario_state.current_phase = some pd)
    (hnp : pd.next_phase = some np) (hne : np ≠ "")
    (hcond : pd.trigger_condition = some cond) :
    let stPre : UserState :=
      { emotion := decay (1 / 10) (clamp (applyKeywords msg state.emotion))
        scenario_state :=
          { state.scenario_state with
              turn_count_in_phase :=
                state.scenario_state.turn_count_in_phase + 1 } }
    let vc := consentStep judge stPre.scenario_state.vars msg hist
    let st1 : UserState :=
      { stPre with
          scenario_state := { stPre.scenario_state with vars := vc.1 } }
    let fired :=
      match pyEval (mkTriggerCtx st1 vc.2) cond with
      | .ok v => pyTruthy v
      | .error _ => false
    let r := checkScenarioTrigger phases judge stPre msg hist
    (updateStateFallback phases judge msg state hist).1 = r.1 ∧
    (fired = true →
       r.1.scenario_state.current_phase = np ∧
       r.1.scenario_state.turn_count_in_phase = 0 ∧
       varTruthy r.1.scenario_state.vars "consent_for_next_phase" = false ∧
       varTruthy r.1.scenario_state.vars "awaiting_consent" = false ∧
       (∀ s ss, (phases.lookup np).map PhaseDef.scenes = some (s :: ss) →
          r.1.scenario_state.current_scene = s) ∧
       (updateStateFallback phases judge msg state hist).2 =
         some " [SYSTEM: PHASE CHANGED]") ∧
    (fired = false →
       r.1.scenario_state.turn_count_in_phase =
         state.scenario_state.turn_count_in_phase + 1 ∧
       r.1.scenario_state.current_phase =
         state.scenario_state.current_phase) := by
  intro stPre vc st1 fired r
  have hlook : phases.lookup stPre.scenario_state.current_phase = some pd := hpd
  have hr : r = checkScenarioTrigger phases judge stPre msg hist := rfl
  refine ⟨rfl, ?_, ?_⟩
  · intro hfired
    have hrr : r =
        ({ st1 with
            scenario_state :=
              { current_phase := np
                current_scene :=
                  match phases.lookup np with
                  | some pd2 =>
                    match pd2.scenes with
                    | s :: _ => s
                    | [] => st1.scenario_state.current_scene
                  | none => st1.scenario_state.current_scene
                turn_count_in_phase := 0
                vars :=
                  setKey "awaiting_consent" (.boolV false)
                    (setKey "consent_for_next_phase" (.boolV false) vc.1) } },
          true, none) := by
      rw [hr]
      simp only [checkScenarioTrigger, hlook, hnp, hcond, hne, if_false,
        ite_false]
      rw [show (match pyEval (mkTriggerCtx st1 vc.2) cond with
            | .ok v => pyTruthy v
            | .error _ => false) = true from hfired]
      simp
    refine ⟨by rw [hrr], by rw [hrr], ?_, ?_, ?_, ?_⟩
    · rw [hrr]
      have hne2 : ("consent_for_next_phase" : String) ≠ "awaiting_consent" := by
        decide
      simp only [varTruthy]
      rw [lookup_setKey_other _ _ _ _ hne2, lookup_setKey_same]
      rfl
    · rw [hrr]
      simp only [varTruthy]
      rw [lookup_setKey_same]
      rfl
    · intro s ss hsc
      rw [hrr]
      cases hl2 : phases.lookup np with
      | none => rw [hl2] at hsc; simp at hsc
      | some pd2 =>
        rw [hl2] at hsc
        simp only [Option.map_some', Option.some_inj] at hsc
        simp [hl2, hsc]
    · have : (updateStateFallback phases judge msg state hist).2 =
          (if r.2.1 then some " [SYSTEM: PHASE CHANGED]"
           else
             match r.2.2 with
             | some p => some (" [SYSTEM: PROPOSE TRANSITION] " ++ p)
             | none => none) := rfl
      rw [this, hrr]
      simp
  · intro hfired
    rw [hr]
    simp only [checkScenarioTrigger, hlook, hnp, hcond, hne, if_false,
      ite_false]
    rw [show (match pyEval (mkTriggerCtx st1 vc.2) cond with
          | .ok v => pyTruthy v
          | .error _ => false) = false from hfired]
    simp only [Bool.false_eq_true, if_false, ite_false]
    split
    · split
      · split <;> exact ⟨rfl, rfl⟩
      · exact ⟨rfl, rfl⟩
    · exact ⟨rfl, rfl⟩

/-- C3 witness: the amended transition bookkeeping at a concrete firing
input (phase `"a"`, trigger `turn_count_in_phase >= 1`, stored count 0).
-/
theorem C3_transition_amended_witness :
    let phasesW : Phases :=
      [("a", ⟨some "b",
         some (.cmp .ge (.name "turn_count_in_phase") (.const (.numV 1))),
         "", none, ["sa"]⟩),
       ("b", ⟨none, none, "", none, ["sb1", "sb2"]⟩)]
    let judgeW : ConsentJudge := fun _ _ => (false, 0)
    let stateW : UserState :=
      { scenario_state :=
          { current_phase := "a", current_scene := "sa"
            turn_count_in_phase := 0, vars := [] } }
    let stPreW : UserState :=
      { emotion := decay (1 / 10) (clamp (applyKeywords "x" stateW.emotion))
        scenario_state :=
          { stateW.scenario_state with
              turn_count_in_phase :=
                stateW.scenario_state.turn_count_in_phase + 1 } }
    let r := checkScenarioTrigger phasesW judgeW stPreW "x" []
    (updateStateFallback phasesW judgeW "x" stateW []).1 = r.1 ∧
    r.1.scenario_state.current_phase = "b" ∧
    r.1.scenario_state.turn_count_in_phase = 0 ∧
    (updateStateFallback phasesW judgeW "x" stateW []).2 =
      some " [SYSTEM: PHASE CHANGED]" := by
  intro phasesW judgeW stateW stPreW r
  have h := C3_transition_amended phasesW judgeW "x" stateW [] _ "b" _
    rfl rfl (by decide) rfl
  have hf := h.2.1 (by decide)
  exact ⟨h.1, hf.1, hf.2.1, hf.2.2.2.2.2⟩

/-- C6 counterexample: the observer's trigger evaluation is the host
language's general expression evaluator (`eval` with builtins stripped),
not a closed predicate interpreter — a condition text consisting of the
arbitrary arithmetic computation `10 * 10 >= 100`, which mentions no
variable of the fixed set, is executed and its computed result drives a
phase transition. -/
theorem C6_eval_counterexample :
    (checkScenarioTrigger
       [("p", ⟨some "q",
          some (.cmp .ge
            (.binop .mul (.const (.numV 10)) (.const (.numV 10)))
            (.const (.numV 100))), "", none, []⟩),
        ("q", ⟨none, none, "", none, ["q1"]⟩)]
       (fun _ _ => (false, 0))
       { scenario_state :=
           { current_phase := "p", current_scene := "p0"
             turn_count_in_phase := 0, vars := [] } }
       "hi" []).2.1 = true ∧
    (checkScenarioTrigger
       [("p", ⟨some "q",
          some (.cmp .ge
            (.binop .mul (.const (.numV 10)) (.const (.numV 10)))
            (.const (.numV 100))), "", none, []⟩),
        ("q", ⟨none, none, "", none, ["q1"]⟩)]
       (fun _ _ => (false, 0))
       { scenario_state :=
           { current_phase := "p", current_scene := "p0"
             turn_count_in_phase := 0, vars := [] } }
       "hi" []).1.scenario_state.current_phase = "q" := by
  have hd : decide ((100 : ℚ) ≤ 10 * 10) = true := decide_eq_true (by norm_num)
  have hev : ∀ ctx, pyEval ctx
      (.cmp .ge (.binop .mul (.const (.numV 10)) (.const (.numV 10)))
        (.const (.numV 100))) =
      .ok (.boolV (decide ((100 : ℚ) ≤ 10 * 10))) := fun ctx => rfl
  constructor
  · simp [checkScenarioTrigger, consentStep, varTruthy, mkTriggerCtx, hev, hd,
      pyTruthy, List.lookup]
  · simp [checkScenarioTrigger, consentStep, varTruthy, mkTriggerCtx, hev, hd,
      pyTruthy, List.lookup]

/-- C6 (amended): for a phase with a next phase and a trigger condition,
the transition decision is exactly the truthiness of evaluating the raw
condition expression with the embedded general expression evaluator
(`pyEval`, the model of Python `eval` over the turn context); only the
rule selector's applicability conditions go through the restricted
closed interpreter `evalRuleCondition`. -/
theorem C6_eval_amended (phases : Phases) (judge : ConsentJudge)
    (state : UserState) (msg : String) (hist : List (String × String))
    (pd : PhaseDef) (np : String) (cond : PyExpr)
    (hpd : phases.lookup state.scenario_state.current_phase = some pd)
    (hnp : pd.next_phase = some np) (hne : np ≠ "")
    (hcond : pd.trigger_condition = some cond) :
    let vc := consentStep judge state.scenario_state.vars msg hist
    let st1 : UserState :=
      { state with
          scenario_state := { state.scenario_state with vars := vc.1 } }
    ((checkScenarioTrigger phases judge state msg hist).2.1 = true ↔
      ∃ v, pyEval (mkTriggerCtx st1 vc.2) cond = .ok v ∧ pyTruthy v = true) := by
  intro vc st1
  simp only [checkScenarioTrigger, hpd, hnp, hcond, hne, if_false, ite_false]
  cases hev : pyEval (mkTriggerCtx st1 vc.2) cond with
  | ok v =>
    by_cases ht : pyTruthy v = true
    · constructor
      · intro _
        exact ⟨v, rfl, ht⟩
      · intro _
        split
        · rfl
        · rename_i hcf
          exact absurd ht hcf
    · constructor
      · intro hfalse
        exfalso
        revert hfalse
        split
        · rename_i hct
          exact absurd hct ht
        · split
          · split
            · split <;> simp
            · simp
          · simp
      · rintro ⟨w, hw, htw⟩
        have hvw : v = w := Except.ok.inj hw
        exact absurd (hvw ▸ htw) ht
  | error e =>
    constructor
    · intro hfalse
      exfalso
      revert hfalse
      split
      · rename_i hct
        simp at hct
      · split
        · split
          · split <;> simp
          · simp
        · simp
    · rintro ⟨w, hw, -⟩
      exact Except.noConfusion hw

/-- C6 witness: the amended equivalence at a concrete input whose
condition is the computed arithmetic `2 * 3 >= 6`. -/
theorem C6_eval_amended_witness :
    (checkScenarioTrigger
       [("p", ⟨some "q",
          some (.cmp .ge
            (.binop .mul (.const (.numV 2)) (.const (.numV 3)))
            (.const (.numV 6))), "", none, []⟩),
        ("q", ⟨none, none, "", none, ["q1"]⟩)]
       (fun _ _ => (false, 0))
       { scenario_state :=
           { current_phase := "p", current_scene := "p0"
             turn_count_in_phase := 0, vars := [] } }
       "hi" []).2.1 = true := by
  have h := C6_eval_amended
    [("p", ⟨some "q",
       some (.cmp .ge
         (.binop .mul (.const (.numV 2)) (.const (.numV 3)))
         (.const (.numV 6))), "", none, []⟩),
     ("q", ⟨none, none, "", none, ["q1"]⟩)]
    (fun _ _ => (false, 0))
    { scenario_state :=
        { current_phase := "p", current_scene := "p0"
          turn_count_in_phase := 0, vars := [] } }
    "hi" [] _ "q" _ rfl rfl (by decide) rfl
  have hd : decide ((6 : ℚ) ≤ 2 * 3) = true := decide_eq_true (by norm_num)
  have hev : ∀ ctx, pyEval ctx
      (.cmp .ge (.binop .mul (.const (.numV 2)) (.const (.numV 3)))
        (.const (.numV 6))) =
      .ok (.boolV (decide ((6 : ℚ) ≤ 2 * 3))) := fun ctx => rfl
  exact h.mpr ⟨.boolV true, (hev _).trans (by rw [hd]), rfl⟩

/-- Every run of the legacy loop makes at least one generation call. -/
theorem legacyGo_count_pos (gen : LegacyGen) (critic : Critic)
    (attempt remaining : Nat) (instr : Option String) :
    1 ≤ (legacyGo gen critic attempt remaining instr).2 := by
  cases remaining with
  | zero =>
    simp only [legacyGo]
    split <;> simp
  | succ r =>
    simp only [legacyGo]
    split <;> simp

/-- Every run of the graph loop makes at least one generation call. -/
theorem graphGo_count_pos (gen : GraphGen) (valf : GraphVal)
    (rx : RewriteOracle) (msg : String) (maxRetries callIdx retry : Nat)
    (errors : List String) (fuel : Nat) :
    1 ≤ (graphGo gen valf rx msg maxRetries callIdx retry errors fuel).2.1 := by
  cases h : valf callIdx (gen callIdx) with
  | none => cases fuel <;> simp [graphGo, h]
  | some v =>
    cases fuel with
    | zero => simp [graphGo, h]
    | succ f =>
      by_cases hv : v.is_valid
      · simp [graphGo, h, hv]
      · by_cases hr : maxRetries ≤ retry
        · simp [graphGo, h, hv, hr]
        · simp [graphGo, h, hv, hr]

/-- C1 counterexample: the graph loop returns the draft text when
retries exhaust even though its validation result still contains a
violation whose action is BLOCK — the turn does return reply text to
the user (and makes exactly `maxRetries + 1 = 3` generation calls). -/
theorem C1_block_counterexample :
    (graphTurn (fun _ => "だめな発話")
       (fun _ _ => some ⟨false,
         [⟨"r1", "r1", "", .critical, "bad", .block, "", none⟩], []⟩)
       (fun _ _ _ => none) "hello" 2).1 = "だめな発話" ∧
    (graphTurn (fun _ => "だめな発話")
       (fun _ _ => some ⟨false,
         [⟨"r1", "r1", "", .critical, "bad", .block, "", none⟩], []⟩)
       (fun _ _ _ => none) "hello" 2).1 ≠ "" ∧
    ((graphTurn (fun _ => "だめな発話")
       (fun _ _ => some ⟨false,
         [⟨"r1", "r1", "", .critical, "bad", .block, "", none⟩], []⟩)
       (fun _ _ _ => none) "hello" 2).2.2.1.map (fun r =>
         r.violations.any (fun v => v.suggested_action = .block)))
      = some true ∧
    (graphTurn (fun _ => "だめな発話")
       (fun _ _ => some ⟨false,
         [⟨"r1", "r1", "", .critical, "bad", .block, "", none⟩], []⟩)
       (fun _ _ _ => none) "hello" 2).2.1 = 3 := by
  exact ⟨by decide, by decide, by decide, by decide⟩

/-- C1 (amended): both loops make at most `maxRetries + 1`
candidate-generation calls per turn, and `OutputFixer.fix` refuses to
repair a result containing a BLOCK violation (failure with empty text);
but the graph loop's `should_retry` has no BLOCK abort — on exhausted
retries it saves the current draft even when a BLOCK violation is
present, and the legacy Critic loop has no notion of BLOCK at all. -/
theorem C1_retry_amended :
    (∀ (gen : LegacyGen) (critic : Critic) (maxR : Nat)
       (instr : Option String),
       (legacyTurn gen critic maxR instr).2 ≤ maxR + 1) ∧
    (∀ (gen : GraphGen) (valf : GraphVal) (rx : RewriteOracle)
       (msg : String) (maxR : Nat),
       (graphTurn gen valf rx msg maxR).2.1 ≤ maxR + 1) ∧
    (∀ (rx : RewriteOracle) (t : String) (vr : ValidationResult) (m : String),
       vr.is_valid = false →
       vr.violations.any (fun v => v.suggested_action = .block) = true →
       (fixerFix rx t vr m).success = false ∧
       (fixerFix rx t vr m).fixed_text = "") := by
  refine ⟨fun gen critic maxR instr => legacyGo_count_le gen critic maxR 0 instr,
    fun gen valf rx msg maxR => ?_, fun rx t vr m hv hb => ?_⟩
  · have h := graphGo_count_le gen valf rx msg maxR (maxR + 1) 0 0 []
    simpa using h
  · have hne : vr.violations.filter (fun v => v.suggested_action = .block)
        ≠ [] := by
      intro h
      obtain ⟨v, hmem, hp⟩ := List.any_eq_true.mp hb
      have hmf : v ∈ vr.violations.filter
          (fun v => v.suggested_action = .block) :=
        List.mem_filter.mpr ⟨hmem, hp⟩
      rw [h] at hmf
      exact absurd hmf (List.not_mem_nil v)
    have hbe : (vr.violations.filter
        (fun v => v.suggested_action = .block)).isEmpty = false := by
      cases hf : vr.violations.filter (fun v => v.suggested_action = .block) with
      | nil => exact absurd hf hne
      | cons a l => simp [List.isEmpty]
    constructor <;> simp [fixerFix, hv, hbe]

/-- C1 witness: the amended retry bounds and the fixer's BLOCK refusal
at concrete inputs. -/
theorem C1_retry_amended_witness :
    (legacyTurn (fun _ _ => "こんにちは") (fun _ => (true, "")) 2 none).2 ≤ 3 ∧
    (graphTurn (fun _ => "x") (fun _ _ => none) (fun _ _ _ => none) "m" 2).2.1
      ≤ 3 ∧
    (⟨false, [⟨"r1", "r1", "", .critical, "bad", .block, "", none⟩], []⟩ :
      ValidationResult).is_valid = false ∧
    ((⟨false, [⟨"r1", "r1", "", .critical, "bad", .block, "", none⟩], []⟩ :
      ValidationResult).violations.any
        (fun v => v.suggested_action = .block)) = true ∧
    (fixerFix (fun _ _ _ => none) "t"
      ⟨false, [⟨"r1", "r1", "", .critical, "bad", .block, "", none⟩], []⟩
      "m").success = false ∧
    (fixerFix (fun _ _ _ => none) "t"
      ⟨false, [⟨"r1", "r1", "", .critical, "bad", .block, "", none⟩], []⟩
      "m").fixed_text = "" := by
  have h := C1_retry_amended.2.2 (fun _ _ _ => none) "t"
    ⟨false, [⟨"r1", "r1", "", .critical, "bad", .block, "", none⟩], []⟩
    "m" rfl (by decide)
  exact ⟨C1_retry_amended.1 _ _ 2 none, C1_retry_amended.2.1 _ _ _ "m" 2,
    rfl, by decide, h.1, h.2⟩

/-- C2 counterexample: in the legacy pipeline the single state-store
commit happens immediately after the observer, *before* the retry
loop's generation call — the observable trace is the commit followed by
a generation call, contradicting "committed only after the retry loop
has concluded, never before the loop starts". -/
theorem C2_commit_counterexample :
    legacyTurnTrace (fun _ _ => "こんにちは") (fun _ => (true, "")) 2 none =
      [.commitState, .genCall] := by
  decide

/-- C2 (amended): each pipeline commits the mutated state exactly once
per turn, but that commit precedes every generation call (it happens
right after the observer step), so abandoning a turn mid-loop does not
undo the already-persisted mutation; only abandonment before the
observer commit leaves the store unchanged. -/
theorem C2_commit_amended :
    (∀ (gen : LegacyGen) (critic : Critic) (maxR : Nat)
       (instr : Option String),
       (legacyTurnTrace gen critic maxR instr).head? = some .commitState ∧
       (legacyTurnTrace gen critic maxR instr).count .commitState = 1 ∧
       1 ≤ (legacyTurnTrace gen critic maxR instr).count .genCall) ∧
    (∀ (gen : GraphGen) (valf : GraphVal) (rx : RewriteOracle)
       (msg : String) (maxR : Nat),
       (graphTurnTrace gen valf rx msg maxR).head? = some .commitState ∧
       (graphTurnTrace gen valf rx msg maxR).count .commitState = 1 ∧
       1 ≤ (graphTurnTrace gen valf rx msg maxR).count .genCall) := by
  constructor
  · intro gen critic maxR instr
    refine ⟨rfl, ?_, ?_⟩
    · simp [legacyTurnTrace, List.count_cons, List.count_replicate]
    · have h := legacyGo_count_pos gen critic 0 maxR instr
      simp [legacyTurnTrace, List.count_cons, List.count_replicate, legacyTurn]
      exact h
  · intro gen valf rx msg maxR
    refine ⟨rfl, ?_, ?_⟩
    · simp [graphTurnTrace, List.count_cons, List.count_replicate]
    · have h := graphGo_count_pos gen valf rx msg maxR 0 0 [] (maxR + 1)
      simp [graphTurnTrace, List.count_cons, List.count_replicate, graphTurn]
      exact h

end YumekaSpec
